import Mathlib

/-!
Verification development for the Assembly/Flasik helper library
(`src/assembly/asm.py`, `src/flasik/functions.py`).

The Python code is shallowly embedded as executable Lean definitions:

* Python dicts become association lists (`Dict`) with first-match lookup,
  in-place replacement on insert, and `update` folding the right dict over
  the left (matching `dict.update` override semantics).
* `session` (a dict), `emit_signal`'s blinker namespace (a name-keyed
  registry of connected receivers), and the function objects wrapped by
  `emit_signal` become explicit state values threaded through the
  definitions.
* `inspect.getargspec(fn).args` becomes the `params` field of `FnInfo`;
  `inspect.getcallargs` becomes `getcallargs` below (simple positional
  parameter lists, no defaults or varargs, as used by the claims).
* Observer callables become `Obs` values: an identity plus an optional
  exception they raise when invoked; dispatching a blinker signal produces
  an ordered event trace (`Event`), aborting at the first raising observer,
  which models blinker's synchronous fail-fast delivery.
-/

/-- Identity of a Python function object wrapped by `emit_signal`:
its `__module__`, `__name__`, and `inspect.getargspec(fn).args`. -/
structure FnInfo where
  module : String
  fname : String
  params : List String
deriving DecidableEq

/-- Python values appearing in the modelled fragment: `None`, ints,
strings, and function objects (used as the `emitter` fallback). -/
inductive Val where
  | none : Val
  | int : Int → Val
  | str : String → Val
  | fnv : FnInfo → Val
deriving DecidableEq

/-- A Python dict with string keys, as an association list whose keys are
unique by construction (first-match lookup, replace-in-place insert). -/
abbrev Dict (α : Type) := List (String × α)

/-- Lookup of `d[k]`, first match. -/
def dlookup {α : Type} (d : Dict α) (k : String) : Option α :=
  match d with
  | [] => Option.none
  | (k2, v) :: rest => if k2 = k then some v else dlookup rest k

/-- Keys of the dict, in order. -/
def dkeys {α : Type} (d : Dict α) : List String := d.map Prod.fst

/-- Assignment `d[k] = v`: replaces the binding in place if the key is
present, appends it otherwise (Python dict insertion order). -/
def dinsert {α : Type} (d : Dict α) (k : String) (v : α) : Dict α :=
  match d with
  | [] => [(k, v)]
  | (k2, v2) :: rest =>
    if k2 = k then (k, v) :: rest else (k2, v2) :: dinsert rest k v

/-- Removal of every binding of `k` (a well-formed dict has at most one). -/
def derase {α : Type} (d : Dict α) (k : String) : Dict α :=
  match d with
  | [] => []
  | (k2, v) :: rest => if k2 = k then derase rest k else (k2, v) :: derase rest k

/-- Model of `d.pop(k, None)`: the looked-up value (or `None`) together
with the dict with `k` removed. -/
def dpop {α : Type} (d : Dict α) (k : String) : Option α × Dict α :=
  (dlookup d k, derase d k)

/-- Model of `d.update(e)`: every binding of `e` written into `d`,
later bindings overriding earlier ones. -/
def dupdate {α : Type} (d e : Dict α) : Dict α :=
  e.foldl (fun acc kv => dinsert acc kv.fst kv.snd) d

/-!
Signal dispatcher (`emit_signal` in `src/assembly/asm.py` lines 218-277;
`src/flasik/functions.py` has a character-identical copy).
-/

/-- An exception value (identified by its type name, e.g. `TypeError`). -/
structure Exn where
  name : String
deriving DecidableEq

/-- An observer connected to a blinker signal: an identity plus the
exception it raises when invoked (none when it returns normally). -/
structure Obs where
  oid : String
  failure : Option Exn
deriving DecidableEq

/-- Payload delivered to an observer by `send` in `emit_signal.decorator`:
the leading positional value (`None`/absent for pre, the wrapped result
for post), the bound-arguments mapping (`sendkw["kwargs"]`), the sender
(`fn.__name__`), and the emitter (`kw.get('self', kw.get('cls', fn))`). -/
structure SendPayload where
  res : Option Val
  kwargs : Dict Val
  sender : String
  emitter : Val
deriving DecidableEq

/-- Observable events of one wrapper invocation: an observer being called
with its payload, or the wrapped callable being called with the original
positional and keyword arguments. -/
inductive Event where
  | obsCall : String → SendPayload → Event
  | fnCall : List Val → Dict Val → Event
deriving DecidableEq

/-- Test for an event being a call of the wrapped function. -/
def Event.isFnCall : Event → Bool
  | Event.fnCall _ _ => true
  | _ => false

/-- Test for an event being a call of the observer with the given id. -/
def Event.isObsCall (oid : String) : Event → Bool
  | Event.obsCall o _ => o = oid
  | _ => false

/-- Binding of the parameters not covered positionally, each taken from
the keyword dict; fails when one is missing. -/
def bindRest (kws : Dict Val) : List String → Option (Dict Val)
  | [] => some []
  | p :: rest =>
    match dlookup kws p with
    | some v => (bindRest kws rest).map (fun tail => (p, v) :: tail)
    | Option.none => Option.none

/-- Model of `inspect.getcallargs(fn, *pos, **kws)` for a callable whose
argspec is the plain positional parameter list `ps` (no defaults, no
varargs): binds positional arguments to the leading parameters in order,
fills the remaining parameters from keyword arguments, and fails (Python
raises `TypeError`) when positional arguments overflow, a keyword does not
name an unbound parameter, or a parameter is left without a value. -/
def getcallargs (ps : List String) (pos : List Val) (kws : Dict Val) :
    Option (Dict Val) :=
  if pos.length ≤ ps.length
      && kws.all (fun kv => (ps.drop pos.length).contains kv.fst) then
    match bindRest kws (ps.drop pos.length) with
    | some tail => some (ps.zip pos ++ tail)
    | Option.none => Option.none
  else Option.none

/-- The process-wide blinker `Namespace`, modelled as a map from signal
name to the list of connected receivers in connection order. -/
abbrev Registry := List (String × List Obs)

/-- Receivers connected to the named signal (empty when the signal has
none or does not exist yet). -/
def regObservers (reg : Registry) (name : String) : List Obs :=
  match dlookup reg name with
  | some os => os
  | Option.none => []

/-- Whether the namespace already holds a signal of this name. -/
def regHas (reg : Registry) (name : String) : Bool :=
  (dlookup reg name).isSome

/-- Model of `namespace.signal(name)` used for its creation side effect:
returns the namespace, with the signal created (no receivers) if new. -/
def regEnsure (reg : Registry) (name : String) : Registry :=
  if regHas reg name then reg else reg ++ [(name, [])]

/-- Model of `namespace.signal(name).connect(o)`: appends the receiver. -/
def regConnect (reg : Registry) (name : String) (o : Obs) : Registry :=
  match dlookup reg name with
  | some os => dinsert reg name (os ++ [o])
  | Option.none => reg ++ [(name, [o])]

/-- Synchronous delivery of a blinker signal to its receivers in order:
each receiver is called with the payload; the first raising receiver
aborts delivery and its exception propagates. -/
def dispatchChannel (os : List Obs) (pl : SendPayload) :
    List Event × Option Exn :=
  match os with
  | [] => ([], Option.none)
  | o :: rest =>
    match o.failure with
    | some e => ([Event.obsCall o.oid pl], some e)
    | Option.none =>
      let r := dispatchChannel rest pl
      (Event.obsCall o.oid pl :: r.fst, r.snd)

/-- The emitter identity computed by `send`:
`kw.get('self', kw.get('cls', fn))` on the merged keyword dict (note that
a stored `None` value is returned as-is, like `dict.get`). -/
def emitterOf (fn : FnInfo) (kw2 : Dict Val) : Val :=
  match dlookup kw2 "self" with
  | some v => v
  | Option.none =>
    match dlookup kw2 "cls" with
    | some v => v
    | Option.none => Val.fnv fn

/-- Model of the inner `send(action, *a, **kw)` of `emit_signal.decorator`
(asm.py lines 255-267): pops `result` from the keyword dict, merges in
`inspect.getcallargs(fn, *a, **kw)`, builds the payload (`kwargs` copy of
the merged dict, `sender = fn.__name__`,
`emitter = kw.get('self', kw.get('cls', fn))`), and sends it on the signal
named `action + "_" + fname` — with the popped result as the leading
positional value exactly when the action is `"post"`. A `getcallargs`
failure is the `TypeError` it raises inside `send`. -/
def send (reg : Registry) (fname : String) (fn : FnInfo) (action : String)
    (pos : List Val) (kws : Dict Val) : List Event × Option Exn :=
  let result := dlookup kws "result"
  let kw := derase kws "result"
  match getcallargs fn.params pos kw with
  | Option.none => ([], some { name := "TypeError" })
  | some ba =>
    let kw2 := dupdate kw ba
    let pl : SendPayload :=
      { res := if action = "post" then result else Option.none
        kwargs := kw2
        sender := fn.fname
        emitter := emitterOf fn kw2 }
    dispatchChannel (regObservers reg (action ++ "_" ++ fname)) pl

/-- Model of the returned `wrapper(*args, **kwargs)` (asm.py lines
269-276): dispatch pre, call `fn` with the original arguments, store the
result under `kwargs["result"]`, dispatch post, and return the result.
`fnBeh` is what the wrapped callable does on this invocation (its return
value or the exception it raises); exceptions raised at any stage abort
the remaining steps and propagate. The first component is the ordered
event trace of the invocation. -/
def wrapper (reg : Registry) (fname : String) (fn : FnInfo)
    (fnBeh : Except Exn Val) (pos : List Val) (kws : Dict Val) :
    List Event × Except Exn Val :=
  match send reg fname fn "pre" pos kws with
  | (preE, some e) => (preE, Except.error e)
  | (preE, Option.none) =>
    match fnBeh with
    | Except.error e => (preE ++ [Event.fnCall pos kws], Except.error e)
    | Except.ok v =>
      match send reg fname fn "post" pos (dinsert kws "result" v) with
      | (postE, some e) =>
        (preE ++ [Event.fnCall pos kws] ++ postE, Except.error e)
      | (postE, Option.none) =>
        (preE ++ [Event.fnCall pos kws] ++ postE, Except.ok v)

/-- Default channel base name (asm.py lines 242-247): the module name,
then `_` and the decoration-time caller's code-object name when the
argspec contains `self` or `cls`, then `__` and the function name. -/
def defaultFname (fn : FnInfo) (callerName : String) : String :=
  (if fn.params.contains "self" || fn.params.contains "cls"
    then fn.module ++ "_" ++ callerName
    else fn.module) ++ "__" ++ fn.fname

/-- Channel base name: the explicit `sender` argument when given and
truthy (a non-empty string), the derived default otherwise
(`fname = sender; if not fname: ...`). -/
def deriveFname (sender : Option String) (fn : FnInfo) (callerName : String) :
    String :=
  match sender with
  | some s => if s = "" then defaultFname fn callerName else s
  | Option.none => defaultFname fn callerName

/-- Decoration-time effect of `emit_signal(sender, namespace)` applied to
`fn` (asm.py lines 239-253): derives the channel base name and creates
the `pre_` and `post_` signals in the namespace (`fn.pre`, `fn.post`).
Returns the updated namespace and the derived base name. -/
def decorate (reg : Registry) (sender : Option String) (fn : FnInfo)
    (callerName : String) : Registry × String :=
  let fname := deriveFname sender fn callerName
  (regEnsure (regEnsure reg ("pre_" ++ fname)) ("post_" ++ fname), fname)

/-!
Session flash data (asm.py lines 24-39). The Flask `session` is a dict;
both helpers are pure state transformers on it here.
-/

/-- Model of `set_flash_data(data)`: writes `session["_flash_data"]`. -/
def set_flash_data (s : Dict Val) (data : Val) : Dict Val :=
  dinsert s "_flash_data" data

/-- Model of `get_flashed_data()`: `session.pop("_flash_data", None)`,
returning the popped value (or `None`) and the updated session. -/
def get_flashed_data (s : Dict Val) : Option Val × Dict Val :=
  dpop s "_flash_data"

/-!
Upload helper (asm.py lines 75-106). The delegated
`storage.upload(file, **kwargs)` call is represented by the `UploadCall`
it would receive; a `ValueError` raised before it is an `Except.error`.
-/

/-- The `ValueError` cases `upload_file` raises before uploading. -/
inductive ValueErr where
  | missingProps : ValueErr
  | missingPropsKey : String → ValueErr
deriving DecidableEq

/-- The delegated `storage.upload(file, **kwargs)` invocation. -/
structure UploadCall where
  file : Val
  kwargs : Dict Val
deriving DecidableEq

/-- Model of `upload_file(_props_key, file, **kw)`: with a non-`None`
props key, reads `STORAGE_UPLOAD_FILE_PROPS` from config (`conf` is
`none` when the key is absent, i.e. `config.get` returned `None`), raises
`ValueError` when that is falsy (absent or empty) or when the key is
missing from it; otherwise merges the profile properties into `kwargs`
and then the explicit keyword arguments over them, and uploads. -/
def upload_file (conf : Option (Dict (Dict Val))) (props_key : Option String)
    (file : Val) (kw : Dict Val) : Except ValueErr UploadCall :=
  match props_key with
  | Option.none => Except.ok { file := file, kwargs := dupdate [] kw }
  | some k =>
    match conf with
    | Option.none => Except.error ValueErr.missingProps
    | some c =>
      if c.isEmpty then Except.error ValueErr.missingProps
      else
        match dlookup c k with
        | Option.none => Except.error (ValueErr.missingPropsKey k)
        | some props =>
          Except.ok { file := file, kwargs := dupdate (dupdate [] props) kw }

/-!
Signed tokens (asm.py lines 318-424). The `itsdangerous` serializers are
third-party collaborators; they are modelled by their contract, at the
granularity the code observes:

* a token string is represented by its list of dot-separated segments
  (`Token`), faithful because every segment the serializers emit is drawn
  from a dot-free alphabet, so `token.split(".")` recovers exactly the
  segment list;
* payloads are natural numbers carried through an injective dot-free
  textual encoding (`encNat`/`decNat`, a stand-in for base64url-encoded
  serialization);
* the HMAC signature is an unspecified deterministic dot-free digest of
  key, salt, and signed content (`macOf`); forgery resistance is not
  needed by any claim;
* `URLSafeSerializer.dumps/loads` produce and check
  `payload.signature` (two segments); `URLSafeTimedSerializer2` (asm.py
  lines 318-335) overrides `get_timestamp` to embed `now + expires_in`
  (an absolute expiry time, in seconds) as the middle segment, and
  `loads(token, max_age=None, return_timestamp=True)` returns the payload
  together with that timestamp;
* clocks are abstract (`Nat` seconds on a single timeline), standing in
  for `datetime.datetime.utcnow()`.
-/

/-- Token string, as its list of dot-separated segments. -/
abbrev Token := List String

/-- Injective dot-free textual encoding of a payload (stand-in for the
base64url serialization of the signed data). -/
def encNat (n : Nat) : String := String.mk (List.replicate n 'x')

/-- Decoding, inverse of `encNat` on its image. -/
def decNat (s : String) : Option Nat :=
  if s.data.all (fun c => c == 'x') then some s.data.length else Option.none

/-- Deterministic dot-free digest standing in for the HMAC signature. -/
def macOf (secret salt body : String) : String :=
  encNat (secret.length * 3 + salt.length * 5 + body.length * 7 + 11)

/-- Errors raised by the `itsdangerous` layer and by `unsign_data`:
`signatureExpired` carries the payload and the date signed. -/
inductive SigErr where
  | badSignature : SigErr
  | badPayload : SigErr
  | signatureExpired : Nat → Nat → SigErr
deriving DecidableEq

/-- Model of `itsdangerous.URLSafeSerializer(...).dumps(data)`:
`payload.signature`, two segments. -/
def urlsafe_dumps (secret salt : String) (data : Nat) : Token :=
  [encNat data, macOf secret salt (encNat data)]

/-- Model of `itsdangerous.URLSafeSerializer(...).loads(token)`: verifies
the signature over the payload segment and deserializes it. -/
def urlsafe_loads (secret salt : String) (t : Token) : Except SigErr Nat :=
  match t with
  | [p, s] =>
    if s = macOf secret salt p then
      match decNat p with
      | some v => Except.ok v
      | Option.none => Except.error SigErr.badPayload
    else Except.error SigErr.badSignature
  | _ => Except.error SigErr.badSignature

/-- Model of `URLSafeTimedSerializer2(...).dumps(data)` at clock `now`
with `expires_in` seconds: `payload.timestamp.signature`, three segments,
the timestamp being the absolute expiry time `now + expires_in` produced
by `TimestampSigner2.get_timestamp`. -/
def urlsafe_timed_dumps (secret salt : String) (expires_in now data : Nat) :
    Token :=
  [encNat data, encNat (now + expires_in),
   macOf secret salt (encNat data ++ "." ++ encNat (now + expires_in))]

/-- Model of `URLSafeTimedSerializer2(...).loads(token, max_age=None,
return_timestamp=True)`: verifies the signature over
`payload.timestamp` and returns the payload value and the timestamp. -/
def urlsafe_timed_loads (secret salt : String) (t : Token) :
    Except SigErr (Nat × Nat) :=
  match t with
  | [p, ts, s] =>
    if s = macOf secret salt (p ++ "." ++ ts) then
      match decNat p, decNat ts with
      | some v, some tsv => Except.ok (v, tsv)
      | _, _ => Except.error SigErr.badPayload
    else Except.error SigErr.badSignature
  | _ => Except.error SigErr.badSignature

/-- Model of `sign_data(data, expires_in)` (asm.py lines 380-399) at
clock `now`, with the configured secret key and salt explicit: a truthy
`expires_in` (a non-zero number of minutes) selects the timed serializer
with `expires_in * 60` seconds; otherwise the plain serializer. -/
def sign_data (secret salt : String) (data : Nat) (expires_in : Option Nat)
    (now : Nat) : Token :=
  match expires_in with
  | some m =>
    if m = 0 then urlsafe_dumps secret salt data
    else urlsafe_timed_dumps secret salt (m * 60) now data
  | Option.none => urlsafe_dumps secret salt data

/-- Model of `unsign_data(token)` (asm.py lines 401-424) at clock `now`:
when `token.split(".")` has exactly three segments, the timed serializer
verifies it and the embedded timestamp is compared with the clock
(`timestamp > now` returns the value, otherwise `SignatureExpired` is
raised); any other shape is verified by the plain serializer. -/
def unsign_data (secret salt : String) (token : Token) (now : Nat) :
    Except SigErr Nat :=
  if token.length = 3 then
    match urlsafe_timed_loads secret salt token with
    | Except.error e => Except.error e
    | Except.ok vt =>
      if now < vt.snd then Except.ok vt.fst
      else Except.error (SigErr.signatureExpired vt.fst vt.snd)
  else urlsafe_loads secret salt token

/-!
General lemmas about the embedded operations.
-/

theorem dlookup_dinsert_self {α : Type} (d : Dict α) (k : String) (v : α) :
    dlookup (dinsert d k v) k = some v := by
  induction d with
  | nil => simp [dinsert, dlookup]
  | cons hd tl ih =>
    obtain ⟨k2, v2⟩ := hd
    by_cases h : k2 = k
    · simp [dinsert, dlookup, h]
    · simp [dinsert, dlookup, h, ih]

theorem dlookup_dinsert_ne {α : Type} (d : Dict α) (k k2 : String) (v : α)
    (h : k ≠ k2) : dlookup (dinsert d k v) k2 = dlookup d k2 := by
  induction d with
  | nil => simp [dinsert, dlookup, h]
  | cons hd tl ih =>
    obtain ⟨k3, v3⟩ := hd
    by_cases h3 : k3 = k
    · subst h3
      simp [dinsert, dlookup, h]
    · simp [dinsert, dlookup, h3, ih]

theorem dlookup_derase_self {α : Type} (d : Dict α) (k : String) :
    dlookup (derase d k) k = Option.none := by
  induction d with
  | nil => simp [derase, dlookup]
  | cons hd tl ih =>
    obtain ⟨k2, v⟩ := hd
    by_cases h : k2 = k
    · simp [derase, h, ih]
    · simp [derase, dlookup, h, ih]

theorem derase_of_dlookup_eq_none {α : Type} (d : Dict α) (k : String)
    (h : dlookup d k = Option.none) : derase d k = d := by
  induction d with
  | nil => simp [derase]
  | cons hd tl ih =>
    obtain ⟨k2, v⟩ := hd
    by_cases h2 : k2 = k
    · simp [dlookup, h2] at h
    · simp [dlookup, h2] at h
      simp [derase, h2, ih h]

theorem derase_dinsert_self {α : Type} (d : Dict α) (k : String) (v : α)
    (h : dlookup d k = Option.none) : derase (dinsert d k v) k = d := by
  induction d with
  | nil => simp [dinsert, derase]
  | cons hd tl ih =>
    obtain ⟨k2, v2⟩ := hd
    by_cases h2 : k2 = k
    · simp [dlookup, h2] at h
    · simp [dlookup, h2] at h
      simp [dinsert, derase, h2, ih h]

theorem dlookup_eq_none_of_not_mem_dkeys {α : Type} (d : Dict α) (k : String)
    (h : k ∉ dkeys d) : dlookup d k = Option.none := by
  induction d with
  | nil => simp [dlookup]
  | cons hd tl ih =>
    obtain ⟨k2, v⟩ := hd
    simp [dkeys] at h
    simp [dlookup, h.1, ih (by simp [dkeys, h.2])]
    intro hk
    exact absurd hk.symm h.1

theorem mem_dkeys_of_dlookup_isSome {α : Type} (d : Dict α) (k : String)
    (h : (dlookup d k).isSome) : k ∈ dkeys d := by
  by_contra hmem
  rw [dlookup_eq_none_of_not_mem_dkeys d k hmem] at h
  simp at h

theorem dlookup_isSome_of_mem_dkeys {α : Type} (d : Dict α) (k : String)
    (h : k ∈ dkeys d) : (dlookup d k).isSome := by
  induction d with
  | nil => simp [dkeys] at h
  | cons hd tl ih =>
    obtain ⟨k2, v⟩ := hd
    by_cases h2 : k2 = k
    · simp [dlookup, h2]
    · simp [dkeys, h2] at h
      rcases h with h | h
      · exact absurd h.symm h2
      · simpa [dlookup, h2] using ih (by simpa [dkeys] using h)

theorem dlookup_dupdate {α : Type} (d e : Dict α) (k : String)
    (he : (dkeys e).Nodup) :
    dlookup (dupdate d e) k =
      match dlookup e k with
      | some v => some v
      | Option.none => dlookup d k := by
  induction e generalizing d with
  | nil => simp [dupdate, dlookup]
  | cons hd tl ih =>
    obtain ⟨k1, v1⟩ := hd
    simp [dkeys] at he
    have htl : (dkeys tl).Nodup := he.2
    show dlookup (dupdate (dinsert d k1 v1) tl) k = _
    rw [ih (dinsert d k1 v1) htl]
    by_cases h1 : k1 = k
    · subst h1
      have : dlookup tl k1 = Option.none :=
        dlookup_eq_none_of_not_mem_dkeys tl k1 (by simpa [dkeys] using he.1)
      simp [dlookup, this, dlookup_dinsert_self]
    · simp [dlookup, h1, dlookup_dinsert_ne d k1 k v1 h1]

theorem map_fst_zip_of_le {α β : Type} (l1 : List α) (l2 : List β)
    (h : l2.length ≤ l1.length) :
    (l1.zip l2).map Prod.fst = l1.take l2.length := by
  induction l1 generalizing l2 with
  | nil =>
    cases l2 with
    | nil => simp
    | cons b bs => simp at h
  | cons a as ih =>
    cases l2 with
    | nil => simp
    | cons b bs =>
      simp only [List.length_cons, Nat.succ_le_succ_iff] at h
      rw [List.zip_cons_cons, List.map_cons, List.length_cons,
        List.take_succ_cons, ih bs h]

theorem bindRest_keys (kws : Dict Val) (rest : List String) (tail : Dict Val)
    (h : bindRest kws rest = some tail) : dkeys tail = rest := by
  induction rest generalizing tail with
  | nil =>
    simp [bindRest] at h
    simp [← h, dkeys]
  | cons hd tl ih =>
    unfold bindRest at h
    cases hv : dlookup kws hd with
    | none => rw [hv] at h; exact absurd h (by simp)
    | some v =>
      rw [hv] at h
      cases htl : bindRest kws tl with
      | none => rw [htl] at h; exact absurd h (by simp)
      | some tail2 =>
        rw [htl] at h
        simp at h
        simp [← h, dkeys]
        exact ih tail2 htl

theorem getcallargs_dkeys (ps : List String) (pos : List Val) (kws : Dict Val)
    (ba : Dict Val) (h : getcallargs ps pos kws = some ba) : dkeys ba = ps := by
  unfold getcallargs at h
  split at h
  case isFalse => exact absurd h (by simp)
  case isTrue hc =>
    have hlen : pos.length ≤ ps.length := by
      have := (Bool.and_eq_true_iff.mp hc).1
      exact of_decide_eq_true this
    cases htail : bindRest kws (ps.drop pos.length) with
    | none => rw [htail] at h; exact absurd h (by simp)
    | some tail =>
      rw [htail] at h
      simp at h
      rw [← h]
      have h1 : dkeys (ps.zip pos) = ps.take pos.length :=
        map_fst_zip_of_le ps pos hlen
      have h2 : dkeys tail = ps.drop pos.length :=
        bindRest_keys kws (ps.drop pos.length) tail htail
      calc dkeys (ps.zip pos ++ tail)
          = dkeys (ps.zip pos) ++ dkeys tail := by simp [dkeys]
        _ = ps.take pos.length ++ ps.drop pos.length := by rw [h1, h2]
        _ = ps := List.take_append_drop _ _

theorem getcallargs_binds_param (ps : List String) (pos : List Val)
    (kws : Dict Val) (ba : Dict Val) (k : String)
    (h : getcallargs ps pos kws = some ba) (hk : k ∈ ps) :
    (dlookup ba k).isSome :=
  dlookup_isSome_of_mem_dkeys ba k
    (by rw [getcallargs_dkeys ps pos kws ba h]; exact hk)

theorem getcallargs_kws_key_mem (ps : List String) (pos : List Val)
    (kws : Dict Val) (ba : Dict Val) (k : String)
    (h : getcallargs ps pos kws = some ba) (hk : k ∈ dkeys kws) : k ∈ ps := by
  unfold getcallargs at h
  split at h
  case isFalse => exact absurd h (by simp)
  case isTrue hc =>
    have hall := (Bool.and_eq_true_iff.mp hc).2
    rw [List.all_eq_true] at hall
    simp [dkeys] at hk
    obtain ⟨v, hv⟩ := hk
    have hmem := hall (k, v) hv
    simp at hmem
    exact List.mem_of_mem_drop hmem

theorem getcallargs_kws_lookup_none (ps : List String) (pos : List Val)
    (kws : Dict Val) (ba : Dict Val) (k : String)
    (h : getcallargs ps pos kws = some ba) (hk : k ∉ ps) :
    dlookup kws k = Option.none := by
  by_contra hsome
  have : (dlookup kws k).isSome := by
    cases hx : dlookup kws k with
    | none => exact absurd hx hsome
    | some v => simp
  exact hk (getcallargs_kws_key_mem ps pos kws ba k h
    (mem_dkeys_of_dlookup_isSome kws k this))

theorem dispatchChannel_all_ok (os : List Obs) (pl : SendPayload)
    (h : ∀ o ∈ os, o.failure = Option.none) :
    dispatchChannel os pl
      = (os.map (fun o => Event.obsCall o.oid pl), Option.none) := by
  induction os with
  | nil => simp [dispatchChannel]
  | cons o rest ih =>
    have ho : o.failure = Option.none := h o (by simp)
    have hrest := ih (fun o2 ho2 => h o2 (by simp [ho2]))
    simp [dispatchChannel, ho, hrest]

theorem dispatchChannel_first_fail (pre1 : List Obs) (p : Obs)
    (pre2 : List Obs) (pl : SendPayload) (e : Exn)
    (hok : ∀ o ∈ pre1, o.failure = Option.none) (hp : p.failure = some e) :
    dispatchChannel (pre1 ++ p :: pre2) pl
      = (pre1.map (fun o => Event.obsCall o.oid pl)
          ++ [Event.obsCall p.oid pl], some e) := by
  induction pre1 with
  | nil => simp [dispatchChannel, hp]
  | cons o rest ih =>
    have ho : o.failure = Option.none := hok o (by simp)
    have hrest := ih (fun o2 ho2 => hok o2 (by simp [ho2]))
    simp [dispatchChannel, ho, hrest]

theorem send_pre_eq (reg : Registry) (fname : String) (fn : FnInfo)
    (pos : List Val) (kws : Dict Val) (ba : Dict Val)
    (hres : dlookup kws "result" = Option.none)
    (hba : getcallargs fn.params pos kws = some ba) :
    send reg fname fn "pre" pos kws
      = dispatchChannel (regObservers reg ("pre_" ++ fname))
          { res := Option.none, kwargs := dupdate kws ba,
            sender := fn.fname, emitter := emitterOf fn (dupdate kws ba) } := by
  simp only [send]
  rw [derase_of_dlookup_eq_none kws "result" hres, hba, hres]
  have hn : ("pre" ++ "_" ++ fname : String) = "pre_" ++ fname := rfl
  simp [hn]

theorem send_post_eq (reg : Registry) (fname : String) (fn : FnInfo)
    (pos : List Val) (kws : Dict Val) (ba : Dict Val) (v : Val)
    (hres : dlookup kws "result" = Option.none)
    (hba : getcallargs fn.params pos kws = some ba) :
    send reg fname fn "post" pos (dinsert kws "result" v)
      = dispatchChannel (regObservers reg ("post_" ++ fname))
          { res := some v, kwargs := dupdate kws ba,
            sender := fn.fname, emitter := emitterOf fn (dupdate kws ba) } := by
  simp only [send]
  rw [derase_dinsert_self kws "result" v hres,
    dlookup_dinsert_self kws "result" v, hba]
  have hn : ("post" ++ "_" ++ fname : String) = "post_" ++ fname := rfl
  simp [hn]

theorem dlookup_append {α : Type} (d1 d2 : Dict α) (k : String) :
    dlookup (d1 ++ d2) k =
      match dlookup d1 k with
      | some v => some v
      | Option.none => dlookup d2 k := by
  induction d1 with
  | nil => simp [dlookup]
  | cons hd tl ih =>
    obtain ⟨k2, v⟩ := hd
    by_cases h : k2 = k
    · simp [dlookup, h]
    · simp [dlookup, h, ih]

theorem regObservers_regEnsure (reg : Registry) (n m : String) :
    regObservers (regEnsure reg n) m = regObservers reg m := by
  unfold regEnsure
  by_cases h : regHas reg n = true
  · rw [if_pos h]
  · rw [if_neg h]
    unfold regObservers
    rw [dlookup_append]
    cases hm : dlookup reg m with
    | some os => simp
    | none =>
      by_cases hnm : n = m
      · simp [dlookup, hnm]
      · simp [dlookup, hnm]

theorem regHas_regEnsure_self (reg : Registry) (n : String) :
    regHas (regEnsure reg n) n = true := by
  unfold regEnsure
  by_cases h : regHas reg n = true
  · rw [if_pos h]
    exact h
  · rw [if_neg h]
    unfold regHas
    rw [dlookup_append]
    unfold regHas at h
    cases hx : dlookup reg n with
    | some os => rw [hx] at h; simp at h
    | none => simp [dlookup]

theorem regHas_regEnsure_mono (reg : Registry) (n m : String)
    (h : regHas reg m = true) : regHas (regEnsure reg n) m = true := by
  unfold regEnsure
  by_cases hn : regHas reg n = true
  · rw [if_pos hn]
    exact h
  · rw [if_neg hn]
    unfold regHas at h ⊢
    rw [dlookup_append]
    cases hm : dlookup reg m with
    | some os => simp
    | none => rw [hm] at h; simp at h

theorem regObservers_regConnect_self (reg : Registry) (n : String) (o : Obs) :
    regObservers (regConnect reg n o) n = regObservers reg n ++ [o] := by
  unfold regConnect
  cases hx : dlookup reg n with
  | some os =>
    unfold regObservers
    rw [dlookup_dinsert_self, hx]
  | none =>
    unfold regObservers
    rw [dlookup_append, hx]
    simp [dlookup]

theorem regObservers_regConnect_ne (reg : Registry) (n m : String) (o : Obs)
    (h : m ≠ n) : regObservers (regConnect reg n o) m = regObservers reg m := by
  have h2 : ¬ n = m := fun hh => h hh.symm
  unfold regConnect
  cases hx : dlookup reg n with
  | some os =>
    unfold regObservers
    rw [dlookup_dinsert_ne reg n m _ h2]
  | none =>
    unfold regObservers
    rw [dlookup_append]
    cases hm : dlookup reg m with
    | some os => simp
    | none => simp [dlookup, h2]

theorem wrapper_ok_eq (reg : Registry) (fname : String) (fn : FnInfo)
    (pos : List Val) (kws : Dict Val) (ba : Dict Val) (v : Val)
    (hres : dlookup kws "result" = Option.none)
    (hba : getcallargs fn.params pos kws = some ba)
    (hpreok : ∀ o ∈ regObservers reg ("pre_" ++ fname),
      o.failure = Option.none)
    (hpostok : ∀ o ∈ regObservers reg ("post_" ++ fname),
      o.failure = Option.none) :
    wrapper reg fname fn (Except.ok v) pos kws
      = ((regObservers reg ("pre_" ++ fname)).map
            (fun o => Event.obsCall o.oid
              { res := Option.none, kwargs := dupdate kws ba,
                sender := fn.fname,
                emitter := emitterOf fn (dupdate kws ba) })
          ++ [Event.fnCall pos kws]
          ++ (regObservers reg ("post_" ++ fname)).map
            (fun o => Event.obsCall o.oid
              { res := some v, kwargs := dupdate kws ba,
                sender := fn.fname,
                emitter := emitterOf fn (dupdate kws ba) }),
         Except.ok v) := by
  have h1 := send_pre_eq reg fname fn pos kws ba hres hba
  rw [dispatchChannel_all_ok _ _ hpreok] at h1
  have h2 := send_post_eq reg fname fn pos kws ba v hres hba
  rw [dispatchChannel_all_ok _ _ hpostok] at h2
  simp only [wrapper, h1, h2]

theorem wrapper_preerror_eq (reg : Registry) (fname : String) (fn : FnInfo)
    (fnBeh : Except Exn Val) (pos : List Val) (kws : Dict Val) (ba : Dict Val)
    (pre1 : List Obs) (p : Obs) (pre2 : List Obs) (e : Exn)
    (hres : dlookup kws "result" = Option.none)
    (hba : getcallargs fn.params pos kws = some ba)
    (hpre : regObservers reg ("pre_" ++ fname) = pre1 ++ p :: pre2)
    (hok : ∀ o ∈ pre1, o.failure = Option.none)
    (hp : p.failure = some e) :
    wrapper reg fname fn fnBeh pos kws
      = (pre1.map (fun o => Event.obsCall o.oid
            { res := Option.none, kwargs := dupdate kws ba,
              sender := fn.fname,
              emitter := emitterOf fn (dupdate kws ba) })
          ++ [Event.obsCall p.oid
            { res := Option.none, kwargs := dupdate kws ba,
              sender := fn.fname,
              emitter := emitterOf fn (dupdate kws ba) }],
         Except.error e) := by
  have h1 := send_pre_eq reg fname fn pos kws ba hres hba
  rw [hpre, dispatchChannel_first_fail pre1 p pre2 _ e hok hp] at h1
  simp only [wrapper, h1]

theorem wrapper_fnerror_eq (reg : Registry) (fname : String) (fn : FnInfo)
    (pos : List Val) (kws : Dict Val) (ba : Dict Val) (e : Exn)
    (hres : dlookup kws "result" = Option.none)
    (hba : getcallargs fn.params pos kws = some ba)
    (hpreok : ∀ o ∈ regObservers reg ("pre_" ++ fname),
      o.failure = Option.none) :
    wrapper reg fname fn (Except.error e) pos kws
      = ((regObservers reg ("pre_" ++ fname)).map
            (fun o => Event.obsCall o.oid
              { res := Option.none, kwargs := dupdate kws ba,
                sender := fn.fname,
                emitter := emitterOf fn (dupdate kws ba) })
          ++ [Event.fnCall pos kws],
         Except.error e) := by
  have h1 := send_pre_eq reg fname fn pos kws ba hres hba
  rw [dispatchChannel_all_ok _ _ hpreok] at h1
  simp only [wrapper, h1]

theorem str_append_assoc (a b c : String) : a ++ b ++ c = a ++ (b ++ c) := by
  obtain ⟨la⟩ := a
  obtain ⟨lb⟩ := b
  obtain ⟨lc⟩ := c
  show String.mk (la ++ lb ++ lc) = String.mk (la ++ (lb ++ lc))
  rw [List.append_assoc]

/-!
Claim theorems.
-/

/-- C2: when no explicit sender is given, the derived channel base name
is `module ++ "__" ++ name` for a callable without a `self`/`cls`
parameter, and `module ++ "_" ++ callerName ++ "__" ++ name` when the
argspec contains `self` or `cls` (with `callerName` the code-object name
of the function calling the decorator); decoration registers the two
channels named `pre_` and `post_` plus this base. -/
theorem C2_channel_naming (fn : FnInfo) (c : String) (reg : Registry) :
    (fn.params.contains "self" = false → fn.params.contains "cls" = false →
      (decorate reg Option.none fn c).snd = fn.module ++ "__" ++ fn.fname)
    ∧ (fn.params.contains "self" = true ∨ fn.params.contains "cls" = true →
      (decorate reg Option.none fn c).snd
        = fn.module ++ "_" ++ c ++ "__" ++ fn.fname)
    ∧ regHas (decorate reg Option.none fn c).fst
        ("pre_" ++ (decorate reg Option.none fn c).snd) = true
    ∧ regHas (decorate reg Option.none fn c).fst
        ("post_" ++ (decorate reg Option.none fn c).snd) = true := by
  refine ⟨?_, ?_, ?_, ?_⟩
  · intro h1 h2
    have h1m : "self" ∉ fn.params := by simpa using h1
    have h2m : "cls" ∉ fn.params := by simpa using h2
    simp [decorate, deriveFname, defaultFname, h1m, h2m]
  · intro h
    have hm : "self" ∈ fn.params ∨ "cls" ∈ fn.params := by
      rcases h with h | h
      · exact Or.inl (by simpa using h)
      · exact Or.inr (by simpa using h)
    simp [decorate, deriveFname, defaultFname, hm, str_append_assoc]
  · simp only [decorate]
    exact regHas_regEnsure_mono _ _ _ (regHas_regEnsure_self _ _)
  · simp only [decorate]
    exact regHas_regEnsure_self _ _

/-- Witness for C2 at the literal example of the spec: a plain function
`foo` in module `pkg.mod` and a method `bar` (receiver `self`) decorated
inside a function named `setup`. -/
theorem C2_channel_naming_witness :
    (decorate [] Option.none ⟨"pkg.mod", "foo", ["a"]⟩ "setup").snd
        = "pkg.mod__foo"
    ∧ (decorate [] Option.none ⟨"pkg.mod", "bar", ["self", "x"]⟩ "setup").snd
        = "pkg.mod_setup__bar"
    ∧ regHas (decorate [] Option.none ⟨"pkg.mod", "foo", ["a"]⟩ "setup").fst
        "pre_pkg.mod__foo" = true
    ∧ regHas (decorate [] Option.none ⟨"pkg.mod", "foo", ["a"]⟩ "setup").fst
        "post_pkg.mod__foo" = true := by
  have h := C2_channel_naming ⟨"pkg.mod", "foo", ["a"]⟩ "setup" []
  have hb := C2_channel_naming ⟨"pkg.mod", "bar", ["self", "x"]⟩ "setup" []
  exact ⟨h.1 (by decide) (by decide), hb.2.1 (Or.inl (by decide)),
    h.2.2.1, h.2.2.2⟩

/-- C9: `get_flashed_data` pops the flash entry: right after
`set_flash_data d` the first call returns `d`, the next call returns
`None`, and on any session without the flash key it returns `None` and
leaves the session unchanged (so every later call also returns `None`). -/
theorem C9_flash_pop (s : Dict Val) (d : Val) :
    (get_flashed_data (set_flash_data s d)).fst = some d
    ∧ (get_flashed_data ((get_flashed_data (set_flash_data s d)).snd)).fst
        = Option.none
    ∧ ∀ s2 : Dict Val, dlookup s2 "_flash_data" = Option.none →
        get_flashed_data s2 = (Option.none, s2) := by
  refine ⟨?_, ?_, ?_⟩
  · simp [get_flashed_data, set_flash_data, dpop, dlookup_dinsert_self]
  · simp [get_flashed_data, set_flash_data, dpop, dlookup_derase_self]
  · intro s2 h
    simp [get_flashed_data, dpop, h, derase_of_dlookup_eq_none s2 _ h]

/-- Witness for C9 on a concrete session. -/
theorem C9_flash_pop_witness :
    (get_flashed_data (set_flash_data [("k", Val.int 0)] (Val.int 5))).fst
        = some (Val.int 5)
    ∧ (get_flashed_data
        ((get_flashed_data
          (set_flash_data [("k", Val.int 0)] (Val.int 5))).snd)).fst
        = Option.none
    ∧ (dlookup ([("k", Val.int 0)] : Dict Val) "_flash_data" = Option.none
        ∧ get_flashed_data [("k", Val.int 0)]
            = (Option.none, [("k", Val.int 0)])) := by
  have h := C9_flash_pop [("k", Val.int 0)] (Val.int 5)
  exact ⟨h.1, h.2.1, by decide, h.2.2 [("k", Val.int 0)] (by decide)⟩

/-- C1: with pre-observer `p` connected to the pre channel and
post-observer `q` connected to the post channel, one invocation of the
wrapper (on a call whose arguments bind, with the wrapped callable
returning `v`) calls `p` exactly once before the callable runs, runs the
callable exactly once, calls `q` exactly once after it returns, and
returns `v` unmodified. -/
theorem C1_pre_fn_post_order (reg : Registry) (fname : String) (fn : FnInfo)
    (p q : Obs) (pos : List Val) (kws ba : Dict Val) (v : Val)
    (hres : dlookup kws "result" = Option.none)
    (hba : getcallargs fn.params pos kws = some ba)
    (hpre : regObservers reg ("pre_" ++ fname) = [p])
    (hpost : regObservers reg ("post_" ++ fname) = [q])
    (hp : p.failure = Option.none) (hq : q.failure = Option.none) :
    ∃ pl1 pl2 : SendPayload,
      wrapper reg fname fn (Except.ok v) pos kws
        = ([Event.obsCall p.oid pl1, Event.fnCall pos kws,
            Event.obsCall q.oid pl2], Except.ok v) := by
  refine ⟨{ res := Option.none, kwargs := dupdate kws ba, sender := fn.fname,
            emitter := emitterOf fn (dupdate kws ba) },
          { res := some v, kwargs := dupdate kws ba, sender := fn.fname,
            emitter := emitterOf fn (dupdate kws ba) }, ?_⟩
  rw [wrapper_ok_eq reg fname fn pos kws ba v hres hba
      (by rw [hpre]; intro o ho; simp at ho; rw [ho]; exact hp)
      (by rw [hpost]; intro o ho; simp at ho; rw [ho]; exact hq)]
  rw [hpre, hpost]
  simp

/-- Witness for C1: `f(a, b)` in module `m` called as `f(1, b=2)`, with
the callable returning `7`. -/
theorem C1_pre_fn_post_order_witness :
    ∃ pl1 pl2 : SendPayload,
      wrapper [("pre_m__f", [⟨"p", Option.none⟩]),
               ("post_m__f", [⟨"q", Option.none⟩])]
        "m__f" ⟨"m", "f", ["a", "b"]⟩ (Except.ok (Val.int 7))
        [Val.int 1] [("b", Val.int 2)]
        = ([Event.obsCall "p" pl1,
            Event.fnCall [Val.int 1] [("b", Val.int 2)],
            Event.obsCall "q" pl2], Except.ok (Val.int 7)) :=
  C1_pre_fn_post_order
    [("pre_m__f", [⟨"p", Option.none⟩]), ("post_m__f", [⟨"q", Option.none⟩])]
    "m__f" ⟨"m", "f", ["a", "b"]⟩ ⟨"p", Option.none⟩ ⟨"q", Option.none⟩
    [Val.int 1] [("b", Val.int 2)] [("a", Val.int 1), ("b", Val.int 2)]
    (Val.int 7) (by decide) (by decide) (by decide) (by decide)
    (by decide) (by decide)

/-- C3: if the pre-dispatch reaches a connected pre-observer `p` that
raises (all observers before it returning normally), the wrapped
callable does not execute, no post-observer executes (the trace ends at
the call of `p`), and the exception from `p` is what the wrapper
raises — whatever the callable would have done. -/
theorem C3_preobserver_raises (reg : Registry) (fname : String) (fn : FnInfo)
    (fnBeh : Except Exn Val) (pos : List Val) (kws ba : Dict Val)
    (pre1 : List Obs) (p : Obs) (pre2 : List Obs) (e : Exn)
    (hres : dlookup kws "result" = Option.none)
    (hba : getcallargs fn.params pos kws = some ba)
    (hpre : regObservers reg ("pre_" ++ fname) = pre1 ++ p :: pre2)
    (hok : ∀ o ∈ pre1, o.failure = Option.none)
    (hp : p.failure = some e) :
    ∃ pl : SendPayload,
      wrapper reg fname fn fnBeh pos kws
        = (pre1.map (fun o => Event.obsCall o.oid pl)
            ++ [Event.obsCall p.oid pl], Except.error e)
      ∧ ∀ ev ∈ (wrapper reg fname fn fnBeh pos kws).fst,
          ev.isFnCall = false := by
  refine ⟨{ res := Option.none, kwargs := dupdate kws ba, sender := fn.fname,
            emitter := emitterOf fn (dupdate kws ba) }, ?_, ?_⟩
  · exact wrapper_preerror_eq reg fname fn fnBeh pos kws ba pre1 p pre2 e
      hres hba hpre hok hp
  · intro ev hev
    rw [wrapper_preerror_eq reg fname fn fnBeh pos kws ba pre1 p pre2 e
      hres hba hpre hok hp] at hev
    simp at hev
    rcases hev with ⟨o, _, rfl⟩ | rfl <;> rfl

/-- Witness for C3: a single raising pre-observer, the callable would
have returned `7` but never runs. -/
theorem C3_preobserver_raises_witness :
    ∃ pl : SendPayload,
      wrapper [("pre_m__f", [⟨"p", some ⟨"Boom"⟩⟩]),
               ("post_m__f", [⟨"q", Option.none⟩])]
        "m__f" ⟨"m", "f", ["a", "b"]⟩ (Except.ok (Val.int 7))
        [Val.int 1] [("b", Val.int 2)]
        = ([Event.obsCall "p" pl], Except.error ⟨"Boom"⟩)
      ∧ ∀ ev ∈ (wrapper [("pre_m__f", [⟨"p", some ⟨"Boom"⟩⟩]),
               ("post_m__f", [⟨"q", Option.none⟩])]
        "m__f" ⟨"m", "f", ["a", "b"]⟩ (Except.ok (Val.int 7))
        [Val.int 1] [("b", Val.int 2)]).fst, ev.isFnCall = false :=
  C3_preobserver_raises
    [("pre_m__f", [⟨"p", some ⟨"Boom"⟩⟩]), ("post_m__f", [⟨"q", Option.none⟩])]
    "m__f" ⟨"m", "f", ["a", "b"]⟩ (Except.ok (Val.int 7))
    [Val.int 1] [("b", Val.int 2)] [("a", Val.int 1), ("b", Val.int 2)]
    [] ⟨"p", some ⟨"Boom"⟩⟩ [] ⟨"Boom"⟩
    (by decide) (by decide) (by decide) (by decide) (by decide)

/-- C4: when the wrapped callable raises `e` (and the pre-observers all
returned normally), the trace ends at the call of the callable — the
post channel is never dispatched — and the wrapper raises exactly `e`. -/
theorem C4_fn_raises (reg : Registry) (fname : String) (fn : FnInfo)
    (pos : List Val) (kws ba : Dict Val) (e : Exn)
    (hres : dlookup kws "result" = Option.none)
    (hba : getcallargs fn.params pos kws = some ba)
    (hpreok : ∀ o ∈ regObservers reg ("pre_" ++ fname),
      o.failure = Option.none) :
    ∃ pl : SendPayload,
      wrapper reg fname fn (Except.error e) pos kws
        = ((regObservers reg ("pre_" ++ fname)).map
              (fun o => Event.obsCall o.oid pl)
            ++ [Event.fnCall pos kws], Except.error e) :=
  ⟨{ res := Option.none, kwargs := dupdate kws ba, sender := fn.fname,
     emitter := emitterOf fn (dupdate kws ba) },
   wrapper_fnerror_eq reg fname fn pos kws ba e hres hba hpreok⟩

/-- Witness for C4: the callable raises `Fail`; the post-observer `q`
never appears in the trace. -/
theorem C4_fn_raises_witness :
    ∃ pl : SendPayload,
      wrapper [("pre_m__f", [⟨"p", Option.none⟩]),
               ("post_m__f", [⟨"q", Option.none⟩])]
        "m__f" ⟨"m", "f", ["a", "b"]⟩ (Except.error ⟨"Fail"⟩)
        [Val.int 1] [("b", Val.int 2)]
        = ([Event.obsCall "p" pl,
            Event.fnCall [Val.int 1] [("b", Val.int 2)]],
           Except.error ⟨"Fail"⟩) := by
  obtain ⟨pl, hpl⟩ := C4_fn_raises
    [("pre_m__f", [⟨"p", Option.none⟩]), ("post_m__f", [⟨"q", Option.none⟩])]
    "m__f" ⟨"m", "f", ["a", "b"]⟩
    [Val.int 1] [("b", Val.int 2)] [("a", Val.int 1), ("b", Val.int 2)]
    ⟨"Fail"⟩ (by decide) (by decide) (by decide)
  exact ⟨pl, hpl⟩

theorem pre_ne_post (f : String) : ("post_" ++ f : String) ≠ "pre_" ++ f := by
  obtain ⟨lf⟩ := f
  intro h
  have hd : ('p' :: 'o' :: 's' :: 't' :: '_' :: lf)
      = ('p' :: 'r' :: 'e' :: '_' :: lf) := congrArg String.data h
  simp at hd

theorem decorate_fst_observers (reg : Registry) (s : Option String)
    (fn : FnInfo) (c : String) (name : String) :
    regObservers (decorate reg s fn c).fst name = regObservers reg name := by
  show regObservers (regEnsure (regEnsure reg _) _) name = _
  rw [regObservers_regEnsure, regObservers_regEnsure]

/-- C5: both dispatches deliver the call's arguments bound to the
parameter names as a mapping, with `sender` the callable's own name and
`emitter` the bound `self` value when present, else the bound `cls`
value, else the callable itself; the post dispatch additionally carries
the return value as the leading positional value (the pre dispatch
carries none). -/
theorem C5_payload_contents (reg : Registry) (fname : String) (fn : FnInfo)
    (p q : Obs) (pos : List Val) (kws ba : Dict Val) (v : Val)
    (hres : dlookup kws "result" = Option.none)
    (hba : getcallargs fn.params pos kws = some ba)
    (hpre : regObservers reg ("pre_" ++ fname) = [p])
    (hpost : regObservers reg ("post_" ++ fname) = [q])
    (hp : p.failure = Option.none) (hq : q.failure = Option.none)
    (hnodup : fn.params.Nodup) :
    ∃ pl1 pl2 : SendPayload,
      wrapper reg fname fn (Except.ok v) pos kws
        = ([Event.obsCall p.oid pl1, Event.fnCall pos kws,
            Event.obsCall q.oid pl2], Except.ok v)
      ∧ pl1.res = Option.none
      ∧ pl2.res = some v
      ∧ pl1.sender = fn.fname
      ∧ pl2.sender = fn.fname
      ∧ pl1.kwargs = pl2.kwargs
      ∧ (∀ k ∈ fn.params, dlookup pl1.kwargs k = dlookup ba k)
      ∧ pl1.emitter = pl2.emitter
      ∧ (∀ sv, dlookup ba "self" = some sv → pl1.emitter = sv)
      ∧ ("self" ∉ fn.params →
          ∀ cv, dlookup ba "cls" = some cv → pl1.emitter = cv)
      ∧ ("self" ∉ fn.params → "cls" ∉ fn.params →
          pl1.emitter = Val.fnv fn) := by
  have hkeys : dkeys ba = fn.params := getcallargs_dkeys fn.params pos kws ba hba
  have hnodupba : (dkeys ba).Nodup := by rw [hkeys]; exact hnodup
  refine ⟨{ res := Option.none, kwargs := dupdate kws ba, sender := fn.fname,
            emitter := emitterOf fn (dupdate kws ba) },
          { res := some v, kwargs := dupdate kws ba, sender := fn.fname,
            emitter := emitterOf fn (dupdate kws ba) },
          ?_, rfl, rfl, rfl, rfl, rfl, ?_, rfl, ?_, ?_, ?_⟩
  · rw [wrapper_ok_eq reg fname fn pos kws ba v hres hba
        (by rw [hpre]; intro o ho; simp at ho; rw [ho]; exact hp)
        (by rw [hpost]; intro o ho; simp at ho; rw [ho]; exact hq)]
    rw [hpre, hpost]
    simp
  · intro k hk
    show dlookup (dupdate kws ba) k = dlookup ba k
    rw [dlookup_dupdate kws ba k hnodupba]
    have hsome : (dlookup ba k).isSome :=
      getcallargs_binds_param fn.params pos kws ba k hba hk
    cases hx : dlookup ba k with
    | none => rw [hx] at hsome; simp at hsome
    | some w => simp
  · intro sv hsv
    show emitterOf fn (dupdate kws ba) = sv
    unfold emitterOf
    rw [dlookup_dupdate kws ba "self" hnodupba, hsv]
  · intro hself cv hcv
    have hbaself : dlookup ba "self" = Option.none :=
      dlookup_eq_none_of_not_mem_dkeys ba "self" (by rw [hkeys]; exact hself)
    have hkwsself : dlookup kws "self" = Option.none :=
      getcallargs_kws_lookup_none fn.params pos kws ba "self" hba hself
    show emitterOf fn (dupdate kws ba) = cv
    unfold emitterOf
    rw [dlookup_dupdate kws ba "self" hnodupba, hbaself, hkwsself,
      dlookup_dupdate kws ba "cls" hnodupba, hcv]
  · intro hself hcls
    have hbaself : dlookup ba "self" = Option.none :=
      dlookup_eq_none_of_not_mem_dkeys ba "self" (by rw [hkeys]; exact hself)
    have hkwsself : dlookup kws "self" = Option.none :=
      getcallargs_kws_lookup_none fn.params pos kws ba "self" hba hself
    have hbacls : dlookup ba "cls" = Option.none :=
      dlookup_eq_none_of_not_mem_dkeys ba "cls" (by rw [hkeys]; exact hcls)
    have hkwscls : dlookup kws "cls" = Option.none :=
      getcallargs_kws_lookup_none fn.params pos kws ba "cls" hba hcls
    show emitterOf fn (dupdate kws ba) = Val.fnv fn
    unfold emitterOf
    rw [dlookup_dupdate kws ba "self" hnodupba, hbaself, hkwsself,
      dlookup_dupdate kws ba "cls" hnodupba, hbacls, hkwscls]

/-- Witness for C5: a method `meth(self, x)` in module `m` called as
`meth(obj, x=3)` returning `9`: the kwargs mapping binds `x`, the
emitter is the bound receiver, and the post payload leads with `9`. -/
theorem C5_payload_contents_witness :
    ∃ pl1 pl2 : SendPayload,
      wrapper [("pre_n", [⟨"p", Option.none⟩]), ("post_n", [⟨"q", Option.none⟩])]
        "n" ⟨"m", "meth", ["self", "x"]⟩ (Except.ok (Val.int 9))
        [Val.str "obj"] [("x", Val.int 3)]
        = ([Event.obsCall "p" pl1,
            Event.fnCall [Val.str "obj"] [("x", Val.int 3)],
            Event.obsCall "q" pl2], Except.ok (Val.int 9))
      ∧ pl1.res = Option.none
      ∧ pl2.res = some (Val.int 9)
      ∧ pl1.sender = "meth"
      ∧ pl1.emitter = Val.str "obj"
      ∧ dlookup pl1.kwargs "self" = some (Val.str "obj")
      ∧ dlookup pl1.kwargs "x" = some (Val.int 3) := by
  obtain ⟨pl1, pl2, htr, hr1, hr2, hs1, hs2, hkw, hbound, hem, hself,
      hcls, hfb⟩ :=
    C5_payload_contents
      [("pre_n", [⟨"p", Option.none⟩]), ("post_n", [⟨"q", Option.none⟩])]
      "n" ⟨"m", "meth", ["self", "x"]⟩ ⟨"p", Option.none⟩ ⟨"q", Option.none⟩
      [Val.str "obj"] [("x", Val.int 3)]
      [("self", Val.str "obj"), ("x", Val.int 3)] (Val.int 9)
      (by decide) (by decide) (by decide) (by decide) (by decide) (by decide)
      (by decide)
  refine ⟨pl1, pl2, htr, hr1, hr2, hs1, ?_, ?_, ?_⟩
  · exact hself (Val.str "obj") (by decide)
  · rw [hbound "self" (by decide)]
    decide
  · rw [hbound "x" (by decide)]
    decide

/-- C6: the channel base name derived by decoration is a pure function of
the decoration arguments — two decorations of the same callable with the
same arguments resolve to the same name — and an observer connected to
the pre channel named by the first decoration fires when the wrapper
produced by the second decoration is invoked. -/
theorem C6_stable_identity (s : Option String) (fn : FnInfo) (c : String)
    (p : Obs) (pos : List Val) (kws ba : Dict Val) (v : Val)
    (hres : dlookup kws "result" = Option.none)
    (hba : getcallargs fn.params pos kws = some ba)
    (hp : p.failure = Option.none) :
    (∀ reg1 reg2 : Registry,
      (decorate reg1 s fn c).snd = (decorate reg2 s fn c).snd)
    ∧ (wrapper
        (regConnect (decorate (decorate [] s fn c).fst s fn c).fst
          ("pre_" ++ (decorate [] s fn c).snd) p)
        (decorate (decorate [] s fn c).fst s fn c).snd fn
        (Except.ok v) pos kws).fst.any
          (Event.isObsCall p.oid) = true := by
  constructor
  · intro reg1 reg2
    rfl
  · have hsnd1 : (decorate [] s fn c).snd = deriveFname s fn c := rfl
    have hsnd2 : (decorate (decorate [] s fn c).fst s fn c).snd
        = deriveFname s fn c := rfl
    rw [hsnd1, hsnd2]
    have hpre3 : regObservers
        (regConnect (decorate (decorate [] s fn c).fst s fn c).fst
          ("pre_" ++ deriveFname s fn c) p)
        ("pre_" ++ deriveFname s fn c) = [p] := by
      rw [regObservers_regConnect_self, decorate_fst_observers,
        decorate_fst_observers]
      rfl
    have hpost3 : regObservers
        (regConnect (decorate (decorate [] s fn c).fst s fn c).fst
          ("pre_" ++ deriveFname s fn c) p)
        ("post_" ++ deriveFname s fn c) = [] := by
      rw [regObservers_regConnect_ne _ _ _ _ (pre_ne_post _),
        decorate_fst_observers, decorate_fst_observers]
      rfl
    rw [wrapper_ok_eq _ (deriveFname s fn c) fn pos kws ba v hres hba
        (by rw [hpre3]; intro o ho; simp at ho; rw [ho]; exact hp)
        (by rw [hpost3]; intro o ho; simp at ho)]
    rw [hpre3, hpost3]
    simp [Event.isObsCall]

/-- Witness for C6: re-decorating a plain function `f(a, b)` of module
`m` keeps the channel identity, and a pre-observer connected once fires
on the second decoration's wrapper. -/
theorem C6_stable_identity_witness :
    ((decorate [("x", [])] Option.none ⟨"m", "f", ["a", "b"]⟩ "caller").snd
      = (decorate [] Option.none ⟨"m", "f", ["a", "b"]⟩ "caller").snd)
    ∧ (wrapper
        (regConnect
          (decorate
            (decorate [] Option.none ⟨"m", "f", ["a", "b"]⟩ "caller").fst
            Option.none ⟨"m", "f", ["a", "b"]⟩ "caller").fst
          ("pre_"
            ++ (decorate [] Option.none ⟨"m", "f", ["a", "b"]⟩ "caller").snd)
          ⟨"p", Option.none⟩)
        (decorate
          (decorate [] Option.none ⟨"m", "f", ["a", "b"]⟩ "caller").fst
          Option.none ⟨"m", "f", ["a", "b"]⟩ "caller").snd
        ⟨"m", "f", ["a", "b"]⟩ (Except.ok (Val.int 7))
        [Val.int 1] [("b", Val.int 2)]).fst.any
          (Event.isObsCall "p") = true := by
  have h := C6_stable_identity Option.none ⟨"m", "f", ["a", "b"]⟩ "caller"
    ⟨"p", Option.none⟩ [Val.int 1] [("b", Val.int 2)]
    [("a", Val.int 1), ("b", Val.int 2)] (Val.int 7)
    (by decide) (by decide) (by decide)
  exact ⟨h.1 [("x", [])] [], h.2⟩

theorem decNat_encNat (n : Nat) : decNat (encNat n) = some n := by
  have hall : (List.replicate n 'x').all (fun c => c == 'x') = true := by
    rw [List.all_eq_true]
    intro c hc
    rw [List.eq_of_mem_replicate hc]
    simp
  simp [encNat, decNat, hall]

/-- C7: unsigning a token signed with no expiry recovers the data at any
clock; a token signed with a nonzero `expires_in` of `m` minutes embeds
the expiry instant `now + m * 60` seconds: unsigning strictly before it
returns the data, and from that instant on raises `SignatureExpired`. -/
theorem C7_sign_unsign (secret salt : String) (data m n1 n2 : Nat)
    (hm : m ≠ 0) :
    (unsign_data secret salt (sign_data secret salt data Option.none n1) n2
      = Except.ok data)
    ∧ (n2 < n1 + m * 60 →
        unsign_data secret salt
          (sign_data secret salt data (some m) n1) n2 = Except.ok data)
    ∧ (n1 + m * 60 ≤ n2 →
        unsign_data secret salt
          (sign_data secret salt data (some m) n1) n2
          = Except.error (SigErr.signatureExpired data (n1 + m * 60))) := by
  refine ⟨?_, ?_, ?_⟩
  · simp [sign_data, unsign_data, urlsafe_dumps, urlsafe_loads, decNat_encNat]
  · intro hlt
    simp [sign_data, hm, unsign_data, urlsafe_timed_dumps,
      urlsafe_timed_loads, decNat_encNat, hlt]
  · intro hge
    have hnlt : ¬ n2 < n1 + m * 60 := not_lt.mpr hge
    simp [sign_data, hm, unsign_data, urlsafe_timed_dumps,
      urlsafe_timed_loads, decNat_encNat, hnlt]

/-- Witness for C7: data `5` signed with secret `s`, salt `t`; untimed
round trip at clock 99, and a one-minute expiry signed at clock 0
checked at clocks 59 and 60. -/
theorem C7_sign_unsign_witness :
    (unsign_data "s" "t" (sign_data "s" "t" 5 Option.none 0) 99
      = Except.ok 5)
    ∧ (unsign_data "s" "t" (sign_data "s" "t" 5 (some 1) 0) 59
      = Except.ok 5)
    ∧ (unsign_data "s" "t" (sign_data "s" "t" 5 (some 1) 0) 60
      = Except.error (SigErr.signatureExpired 5 (0 + 1 * 60))) := by
  have h1 := C7_sign_unsign "s" "t" 5 1 0 59 (by decide)
  have h2 := C7_sign_unsign "s" "t" 5 1 0 60 (by decide)
  have h0 := C7_sign_unsign "s" "t" 5 1 0 99 (by decide)
  exact ⟨h0.1, h1.2.1 (by decide), h2.2.2 (by decide)⟩

/-- C8: with a non-`None` props key, `upload_file` raises `ValueError`
before any upload is attempted when the configuration has no
`STORAGE_UPLOAD_FILE_PROPS` mapping (absent or empty) or when the key is
missing from it; with the key present it uploads with the profile's
properties, explicitly passed keyword arguments overriding them. -/
theorem C8_upload_props (k : String) (file : Val) (kw : Dict Val) :
    (upload_file Option.none (some k) file kw
      = Except.error ValueErr.missingProps)
    ∧ (upload_file (some []) (some k) file kw
      = Except.error ValueErr.missingProps)
    ∧ (∀ c : Dict (Dict Val), c ≠ [] → dlookup c k = Option.none →
        upload_file (some c) (some k) file kw
          = Except.error (ValueErr.missingPropsKey k))
    ∧ (∀ (c : Dict (Dict Val)) (props : Dict Val),
        dlookup c k = some props →
        (dkeys props).Nodup → (dkeys kw).Nodup →
        ∃ call : UploadCall,
          upload_file (some c) (some k) file kw = Except.ok call
          ∧ call.file = file
          ∧ ∀ n : String, dlookup call.kwargs n
              = match dlookup kw n with
                | some w => some w
                | Option.none => dlookup props n) := by
  refine ⟨rfl, rfl, ?_, ?_⟩
  · intro c hne hlk
    cases c with
    | nil => exact absurd rfl hne
    | cons hd tl => simp [upload_file, hlk]
  · intro c props hlk hnp hnk
    have hne : c ≠ [] := by
      intro hc
      rw [hc] at hlk
      simp [dlookup] at hlk
    cases c with
    | nil => exact absurd rfl hne
    | cons hd tl =>
      refine ⟨⟨file, dupdate (dupdate [] props) kw⟩, ?_, rfl, ?_⟩
      · simp [upload_file, hlk]
      · intro n
        show dlookup (dupdate (dupdate [] props) kw) n = _
        rw [dlookup_dupdate _ kw n hnk]
        cases hx : dlookup kw n with
        | some w => simp
        | none =>
          simp only
          rw [dlookup_dupdate [] props n hnp]
          cases hy : dlookup props n with
          | some w => simp
          | none => simp [dlookup]

/-- Witness for C8: missing config, empty config, missing profile key,
and a successful upload whose `public` property is overridden by the
explicit keyword argument while `prefix2` comes from the profile. -/
theorem C8_upload_props_witness :
    (upload_file Option.none (some "profile-image") (Val.str "file")
        [("public", Val.int 0)] = Except.error ValueErr.missingProps)
    ∧ (upload_file (some []) (some "profile-image") (Val.str "file")
        [("public", Val.int 0)] = Except.error ValueErr.missingProps)
    ∧ (upload_file (some [("other", [])]) (some "profile-image")
        (Val.str "file") [("public", Val.int 0)]
        = Except.error (ValueErr.missingPropsKey "profile-image"))
    ∧ ∃ call : UploadCall,
        upload_file
          (some [("profile-image",
            [("public", Val.int 1), ("prefix2", Val.str "pi")])])
          (some "profile-image") (Val.str "file") [("public", Val.int 0)]
          = Except.ok call
        ∧ call.file = Val.str "file"
        ∧ dlookup call.kwargs "public" = some (Val.int 0)
        ∧ dlookup call.kwargs "prefix2" = some (Val.str "pi") := by
  have h := C8_upload_props "profile-image" (Val.str "file")
    [("public", Val.int 0)]
  refine ⟨h.1, h.2.1, h.2.2.1 [("other", [])] (by decide) (by decide), ?_⟩
  obtain ⟨call, hok, hfile, hlookup⟩ := h.2.2.2
    [("profile-image", [("public", Val.int 1), ("prefix2", Val.str "pi")])]
    [("public", Val.int 1), ("prefix2", Val.str "pi")]
    (by decide) (by decide) (by decide)
  refine ⟨call, hok, hfile, ?_, ?_⟩
  · rw [hlookup "public"]
    decide
  · rw [hlookup "prefix2"]
    decide

/-- C10: `unsign_data` chooses the verification mode solely from the
token's shape — a token of exactly three dot-separated segments goes
through timed verification with the expiry check, any other shape
through plain verification, whose outcome does not depend on the clock;
the function takes no mode argument. -/
theorem C10_mode_from_shape (secret salt : String) (token : Token)
    (now : Nat) :
    (token.length = 3 →
      unsign_data secret salt token now
        = match urlsafe_timed_loads secret salt token with
          | Except.error e => Except.error e
          | Except.ok vt =>
            if now < vt.snd then Except.ok vt.fst
            else Except.error (SigErr.signatureExpired vt.fst vt.snd))
    ∧ (token.length ≠ 3 →
      unsign_data secret salt token now = urlsafe_loads secret salt token)
    ∧ (token.length ≠ 3 → ∀ n2 : Nat,
      unsign_data secret salt token now
        = unsign_data secret salt token n2) := by
  refine ⟨?_, ?_, ?_⟩
  · intro h
    simp [unsign_data, h]
  · intro h
    simp [unsign_data, h]
  · intro h n2
    simp [unsign_data, h]

/-- Witness for C10: a three-segment token goes timed, a one-segment
token goes plain and ignores the clock. -/
theorem C10_mode_from_shape_witness :
    (unsign_data "s" "t" ["ab", "cd", "ef"] 7
      = match urlsafe_timed_loads "s" "t" ["ab", "cd", "ef"] with
        | Except.error e => Except.error e
        | Except.ok vt =>
          if 7 < vt.snd then Except.ok vt.fst
          else Except.error (SigErr.signatureExpired vt.fst vt.snd))
    ∧ unsign_data "s" "t" ["ab"] 7 = urlsafe_loads "s" "t" ["ab"]
    ∧ unsign_data "s" "t" ["ab"] 7 = unsign_data "s" "t" ["ab"] 99 := by
  have h3 := C10_mode_from_shape "s" "t" ["ab", "cd", "ef"] 7
  have h1 := C10_mode_from_shape "s" "t" ["ab"] 7
  exact ⟨h3.1 (by decide), h1.2.1 (by decide), h1.2.2 (by decide) 99⟩
